import Mathlib

/-!
Verification of the SlagenHalen trick-taking card game engine.

Definitions are shallow embeddings of the TypeScript sources:
* `lib/game/deck.ts`  — suits, ranks, cards;
* `lib/game/trick.ts` — `compareCardsInTrick`, `isValidPlay`,
  `determineTrickWinner`, `simulateTrick`;
* `lib/game/game.ts`  — `calculatePlayerScore`;
* `server.ts`         — broadcast payload assembly, bid submission,
  card-play sequencing, round/game completion and continuation triggers.
-/

namespace SlagenHalen

/-! ### Card and deck model (lib/game/deck.ts) -/

/-- `SUITS = ['HEARTS', 'DIAMONDS', 'CLUBS', 'SPADES']`. -/
inductive Suit where
  | HEARTS
  | DIAMONDS
  | CLUBS
  | SPADES
deriving DecidableEq, Repr, Fintype

/-- `RANKS = ['7', '8', '9', '10', 'JACK', 'QUEEN', 'KING', 'ACE']`. -/
inductive Rank where
  | R7
  | R8
  | R9
  | R10
  | JACK
  | QUEEN
  | KING
  | ACE
deriving DecidableEq, Repr, Fintype

/-- `interface Card { suit: Suit; rank: Rank }`. -/
structure Card where
  suit : Suit
  rank : Rank
deriving DecidableEq, Repr, Fintype

/-! ### Trick logic (lib/game/trick.ts) -/

/-- `interface PlayedCard { playerId: string; card: Card }`. -/
structure PlayedCard where
  playerId : String
  card : Card
deriving DecidableEq, Repr

/-- `RANK_ORDER: Rank[] = ['7','8','9','10','JACK','QUEEN','KING','ACE']`;
lower index = lower value. -/
def RANK_ORDER : List Rank :=
  [.R7, .R8, .R9, .R10, .JACK, .QUEEN, .KING, .ACE]

/-- `compareCardsInTrick(cardA, cardB, leadSuit, trumpSuit)` from
lib/game/trick.ts: 1 if `cardA` is higher, -1 if `cardB` is higher,
0 if neither can be ranked over the other. -/
def compareCardsInTrick (cardA cardB : Card) (leadSuit : Option Suit)
    (trumpSuit : Suit) : Int :=
  let aIsTrump := cardA.suit = trumpSuit
  let bIsTrump := cardB.suit = trumpSuit
  -- Rule 1: trump cards beat non-trump cards
  if aIsTrump ∧ ¬ bIsTrump then 1
  else if ¬ aIsTrump ∧ bIsTrump then -1
  -- Rule 2: both trump, highest rank wins
  else if aIsTrump ∧ bIsTrump then
    if RANK_ORDER.indexOf cardA.rank > RANK_ORDER.indexOf cardB.rank then 1 else -1
  -- Rule 3: neither is trump, compare based on lead suit
  else
    match leadSuit with
    | some ls =>
        let aIsLeadSuit := cardA.suit = ls
        let bIsLeadSuit := cardB.suit = ls
        if aIsLeadSuit ∧ ¬ bIsLeadSuit then 1
        else if ¬ aIsLeadSuit ∧ bIsLeadSuit then -1
        else if aIsLeadSuit ∧ bIsLeadSuit then
          if RANK_ORDER.indexOf cardA.rank > RANK_ORDER.indexOf cardB.rank then 1 else -1
        else 0
    | none =>
        if cardA.suit = cardB.suit then
          if RANK_ORDER.indexOf cardA.rank > RANK_ORDER.indexOf cardB.rank then 1 else -1
        else 0

/-- `hasSuit(hand, suit)`: whether the hand holds a card of the suit. -/
def hasSuit (hand : List Card) (suit : Suit) : Bool :=
  hand.any (fun card => card.suit = suit)

/-- `isValidPlay(playerHand, cardToPlay, leadSuit, trumpSuit)` from
lib/game/trick.ts. -/
def isValidPlay (playerHand : List Card) (cardToPlay : Card)
    (leadSuit : Option Suit) (trumpSuit : Suit) : Bool :=
  -- 1. the player must actually have the card
  if (playerHand.find? (fun card =>
        card.suit = cardToPlay.suit ∧ card.rank = cardToPlay.rank)).isNone then
    false
  else
    match leadSuit with
    -- 2. leading the trick: any card is valid
    | none => true
    | some ls =>
      -- 3. must follow the lead suit when possible
      if hasSuit playerHand ls then cardToPlay.suit = ls
      -- 4. otherwise must play trump when possible
      else if hasSuit playerHand trumpSuit then cardToPlay.suit = trumpSuit
      -- 5. neither lead nor trump in hand: any card is a valid discard
      else true

/-- `determineTrickWinner(playedCardsInOrder, trumpSuit)` from
lib/game/trick.ts.  The source throws on an empty input; the embedding
returns `none` there. -/
def determineTrickWinner (playedCardsInOrder : List PlayedCard)
    (trumpSuit : Suit) : Option PlayedCard :=
  match playedCardsInOrder with
  | [] => none
  | first :: rest =>
    -- the first card played establishes the lead suit for the trick
    let leadSuit := first.card.suit
    some <| rest.foldl (fun winningPlayedCard currentPlayedCard =>
      if compareCardsInTrick currentPlayedCard.card winningPlayedCard.card
          (some leadSuit) trumpSuit > 0 then
        currentPlayedCard
      else
        winningPlayedCard) first

/-- `interface Player` as used by lib/game/trick.ts: an id and a hand. -/
structure Player where
  id : String
  hand : List Card
deriving DecidableEq, Repr

/-- One iteration of the `for (let i = 0; i < 4; i++)` loop of
`simulateTrick`: the state is (players, leadSuit, playedCards); the
player at `(startingPlayerIndex + i) % 4` plays the first valid card of
their hand, which is removed from the hand.  The source throws when no
valid card is found; the embedding returns `Except.error` there. -/
def simulateTrickStep (trumpSuit : Suit) (startingPlayerIndex : Nat)
    (state : List Player × Option Suit × List PlayedCard) (i : Nat) :
    Except String (List Player × Option Suit × List PlayedCard) :=
  let players := state.1
  let leadSuit := state.2.1
  let playedCards := state.2.2
  let playerIndex := (startingPlayerIndex + i) % 4
  match players[playerIndex]? with
  | none => Except.error "invalid player index"
  | some currentPlayer =>
    -- simple AI: find the first valid card to play
    match currentPlayer.hand.findIdx?
        (fun c => isValidPlay currentPlayer.hand c leadSuit trumpSuit) with
    | none =>
        Except.error ("Player " ++ currentPlayer.id ++ " could not find a valid card to play.")
    | some cardIndexInHand =>
      match currentPlayer.hand[cardIndexInHand]? with
      | none => Except.error "invalid card index"
      | some cardToPlay =>
        let leadSuit' := match leadSuit with
          | none => some cardToPlay.suit
          | some s => some s
        let playedCards' := playedCards ++ [⟨currentPlayer.id, cardToPlay⟩]
        let players' := players.set playerIndex
          { currentPlayer with hand := currentPlayer.hand.eraseIdx cardIndexInHand }
        Except.ok (players', leadSuit', playedCards')

/-- `simulateTrick(players, startingPlayerIndex, trumpSuit)` from
lib/game/trick.ts.  The source's `throw` statements become
`Except.error`; `startingPlayerIndex` is a `Nat`, so only the upper
bound of the source's range check remains. -/
def simulateTrick (players : List Player) (startingPlayerIndex : Nat)
    (trumpSuit : Suit) : Except String (List PlayedCard × PlayedCard) :=
  if players.length ≠ 4 then
    Except.error "simulateTrick currently only supports 4 players."
  else if startingPlayerIndex ≥ 4 then
    Except.error "Invalid startingPlayerIndex."
  else do
    let final ← (List.range 4).foldlM
      (simulateTrickStep trumpSuit startingPlayerIndex)
      (players, (none : Option Suit), ([] : List PlayedCard))
    match determineTrickWinner final.2.2 trumpSuit with
    | none => Except.error "Cannot determine winner from an empty set of played cards."
    | some trickWinner => Except.ok (final.2.2, trickWinner)

/-! ### Scoring (lib/game/game.ts) -/

/-- `calculatePlayerScore(bid, tricksTaken)` from lib/game/game.ts. -/
def calculatePlayerScore (bid tricksTaken : Int) : Int :=
  if tricksTaken = bid then
    10 + 3 * tricksTaken
  else
    -3 * |bid - tricksTaken|

/-! ### Server-side state (server.ts, first document)

`server.ts` holds three concatenated variants of the socket server; all
claims cite the first one (lines 1–986), which is embedded here. -/

/-- Session phases (`status` column of `game_sessions`). -/
inductive GameStatus where
  | pending
  | bidding
  | active_play
  | round_summary
  | finished
  | archived
deriving DecidableEq, Repr

/-- `ROUND_DISTRIBUTION = [1,2,3,4,5,6,7,8,8,8,7,6,5,4,3,2,1]` from
lib/game/round.ts (concatenated inside src/lib/game/game.ts, line
401): the fixed 17-round schedule of hand sizes. -/
def ROUND_DISTRIBUTION : List Nat :=
  [1, 2, 3, 4, 5, 6, 7, 8, 8, 8, 7, 6, 5, 4, 3, 2, 1]

/-- The `gamePlayers` columns used by the server handlers. -/
structure GamePlayerRow where
  id : Nat
  playerOrder : Nat
  currentScore : Int
deriving DecidableEq, Repr

/-- The `game_sessions` columns used by the server handlers.
`gamePlayers` carries the seats as fetched: ordered by `playerOrder`
ascending. -/
structure SessionState where
  id : Nat
  status : GameStatus
  currentRound : Option Nat
  currentDealerId : Option Nat
  currentTurnGamePlayerId : Option Nat
  trumpSuit : Option Suit
  currentTrickNumberInRound : Option Nat
  gamePlayers : List GamePlayerRow
deriving DecidableEq, Repr

/-- The partial `gameSessionUpdateData` object built by
`handleRoundCompletionOrGameEnd`: a `none` field is left untouched by
the update. -/
structure GameSessionUpdate where
  status : Option GameStatus := none
  currentRound : Option Nat := none
  currentTrickNumberInRound : Option Nat := none
  trumpSuit : Option Suit := none
  currentDealerId : Option (Option Nat) := none
  currentTurnGamePlayerId : Option (Option Nat) := none
  winnerGamePlayerId : Option Nat := none
deriving DecidableEq, Repr

/-- The `topScore`/`potentialWinners` accumulation loop of
`handleRoundCompletionOrGameEnd`: `topScore` starts at `-Infinity`
(embedded as `none`, below every integer score). -/
def potentialWinnersOf (playersInOrder : List GamePlayerRow) :
    List GamePlayerRow :=
  (playersInOrder.foldl (fun acc player =>
      match acc with
      | (none, _) => (some player.currentScore, [player])
      | (some topScore, winners) =>
        if player.currentScore > topScore then
          (some player.currentScore, [player])
        else if player.currentScore = topScore then
          (some topScore, winners ++ [player])
        else
          (some topScore, winners))
    ((none : Option Int), ([] : List GamePlayerRow))).2

/-- `handleRoundCompletionOrGameEnd` from server.ts, as the
`gameSessionUpdateData` it writes.  The randomness of
`determineTrumpForNewRound()` is isolated as the `newTrumpSuit`
parameter; the `dealCardsForRound` side effect of the next-round branch
is not part of the session update. -/
def handleRoundCompletionOrGameEnd (currentRound : Option Nat)
    (currentDealerId : Option Nat) (playersInOrder : List GamePlayerRow)
    (newTrumpSuit : Suit) : GameSessionUpdate :=
  match currentRound with
  | none =>
      -- critical error: current round is null
      { status := some .archived }
  | some currentRoundNumber =>
    let nextRoundNumber := currentRoundNumber + 1
    if nextRoundNumber > ROUND_DISTRIBUTION.length then
      -- game over
      let potentialWinners := potentialWinnersOf playersInOrder
      { status := some .finished
        currentTurnGamePlayerId := some none
        winnerGamePlayerId :=
          match potentialWinners.mergeSort
              (fun a b => a.playerOrder ≤ b.playerOrder) with
          | [] => none
          | gameWinner :: _ => some gameWinner.id }
    else
      -- prepare for the next round
      let currentDealerIndex : Option Nat :=
        currentDealerId.bind (fun d =>
          playersInOrder.findIdx? (fun p => p.id = d))
      let nextDealerId : Option Nat :=
        match currentDealerIndex with
        | some i =>
            match playersInOrder[(i + 1) % playersInOrder.length]? with
            | some p => some p.id
            | none => currentDealerId
        | none => currentDealerId
      let nextDealerActualIndex : Option Nat :=
        nextDealerId.bind (fun d =>
          playersInOrder.findIdx? (fun p => p.id = d))
      let turn : Option (Option Nat) :=
        match nextDealerActualIndex with
        | some i =>
            match playersInOrder[(i + 1) % playersInOrder.length]? with
            | some p => some (some p.id)
            | none => none
        | none =>
            match playersInOrder[0]? with
            | some p => some (some p.id)
            | none => none
      { status := some .bidding
        currentRound := some nextRoundNumber
        currentTrickNumberInRound := some 1
        trumpSuit := some newTrumpSuit
        currentDealerId := some nextDealerId
        currentTurnGamePlayerId := turn }

/-- What `triggerGameContinuation` does, observably: an optional
session update written inside the transaction, and whether any error
event was emitted to a client (the missing-session and wrong-phase
paths only log to the server console). -/
structure ContinuationOutcome where
  sessionUpdate : Option GameSessionUpdate
  errorEmitted : Bool
deriving DecidableEq, Repr

/-- `triggerGameContinuation` from server.ts: the round-summary
advance shared by the manual `proceedToNextRound` acknowledgement and
the 10-second auto-advance timeout. -/
def triggerGameContinuation (session : Option SessionState)
    (newTrumpSuit : Suit) : ContinuationOutcome :=
  match session with
  | none =>
      -- game not found: console.error only
      { sessionUpdate := none, errorEmitted := false }
  | some s =>
    if s.status ≠ GameStatus.round_summary then
      -- wrong phase: console.warn only, no update, no client error
      { sessionUpdate := none, errorEmitted := false }
    else
      { sessionUpdate := some (handleRoundCompletionOrGameEnd
          s.currentRound s.currentDealerId s.gamePlayers newTrumpSuit)
        errorEmitted := false }

/-! ### Bid submission (server.ts, `submitBid` socket handler) -/

/-- A `player_bids` row (columns used by the handler). -/
structure BidRow where
  gameSessionId : Nat
  gamePlayerId : Nat
  roundNumber : Nat
  bidAmount : Int
deriving DecidableEq, Repr

/-- The database state the `submitBid` handler touches: the session row
and the bid rows. -/
structure DbState where
  session : SessionState
  bids : List BidRow
deriving DecidableEq, Repr

/-- The payload of the `submitBid` socket event. -/
structure BidRequest where
  gameId : Nat
  gamePlayerId : Nat
  bidAmount : Int
  roundNumber : Nat
deriving DecidableEq, Repr

/-- The client-visible emissions of one `submitBid` call:
`actionError` is always unicast to the submitting socket only;
`gameStateUpdate` goes to the whole session room; `bidSuccess` is
unicast to the submitter. -/
structure SubmitBidEmits where
  actionErrorToSender : Option String
  gameStateBroadcastToRoom : Bool
  bidSuccessToSender : Bool
deriving DecidableEq, Repr

/-- The transaction callback of the `submitBid` handler: returns the
database state after the transaction and the `actionError` message, if
one was emitted.  Early `return`s inside the source's callback leave
the database untouched. -/
def submitBidTx (st : DbState) (req : BidRequest) :
    DbState × Option String :=
  if st.session.id ≠ req.gameId then
    (st, some "Spelsessie niet gevonden.")
  else if st.session.status ≠ GameStatus.bidding then
    (st, some "Spel is niet in biedfase.")
  else if st.session.currentRound ≠ some req.roundNumber then
    (st, some "Onjuist rondenummer.")
  else if st.session.currentTurnGamePlayerId ≠ some req.gamePlayerId then
    (st, some "Het is niet jouw beurt om te bieden.")
  else
    -- maxBid = ROUND_DISTRIBUTION[(currentRound || 1) - 1] || 0
    let currentRoundIndex :=
      (match st.session.currentRound with
        | none => 1
        | some 0 => 1
        | some r => r) - 1
    let maxBid : Int := (ROUND_DISTRIBUTION[currentRoundIndex]?.getD 0 : Nat)
    if req.bidAmount < 0 ∨ req.bidAmount > maxBid then
      (st, some "Bod moet tussen 0 en maxBid zijn.")
    else if (st.bids.find? (fun b =>
        b.gamePlayerId = req.gamePlayerId ∧
        b.roundNumber = req.roundNumber)).isSome then
      -- a bid for this (seat, round) already exists
      (st, some "Je hebt al een bod ingediend voor deze ronde.")
    else
      let bids' := st.bids ++ [{ gameSessionId := req.gameId
                                 gamePlayerId := req.gamePlayerId
                                 roundNumber := req.roundNumber
                                 bidAmount := req.bidAmount }]
      let gamePlayers := st.session.gamePlayers
      let currentPlayerIndex :=
        match gamePlayers.findIdx? (fun p => p.id = req.gamePlayerId) with
        | some i => i
        | none => 0     -- findIndex = -1, then (-1 + 1) % n = 0
      let nextPlayerIndex := (currentPlayerIndex + 1) % gamePlayers.length
      let allBids := bids'.filter (fun b =>
        b.roundNumber = req.roundNumber ∧
        (gamePlayers.map (·.id)).contains b.gamePlayerId)
      let turn : Option Nat :=
        if allBids.length ≥ gamePlayers.length then
          -- all players have bid: player left of the dealer starts play
          let playersInOrder := gamePlayers.mergeSort
            (fun a b => a.playerOrder ≤ b.playerOrder)
          let dealerIndex : Option Nat :=
            st.session.currentDealerId.bind (fun d =>
              playersInOrder.findIdx? (fun p => p.id = d))
          let firstPlayerIndex :=
            match dealerIndex with
            | some i => (i + 1) % playersInOrder.length
            | none => 0   -- findIndex = -1, then (-1 + 1) % n = 0
          (playersInOrder[firstPlayerIndex]?).map (·.id)
        else
          (gamePlayers[nextPlayerIndex]?).map (·.id)
      let status' :=
        if allBids.length ≥ gamePlayers.length then GameStatus.active_play
        else st.session.status
      ({ st with
          session := { st.session with
            status := status'
            currentTurnGamePlayerId := turn }
          bids := bids' }, none)

/-- The full `submitBid` handler.  Note that the early `return`s of the
source live inside the transaction callback, so the post-transaction
`gameStateUpdate` broadcast and `bidSuccess` unicast run on every path
that enters the transaction. -/
def submitBid (st : DbState) (req : BidRequest) :
    DbState × SubmitBidEmits :=
  -- if (!gameId || !gamePlayerId || bidAmount === undefined || !roundNumber)
  if req.gameId = 0 ∨ req.gamePlayerId = 0 ∨ req.roundNumber = 0 then
    (st, { actionErrorToSender := some "Ongeldige bidgegevens."
           gameStateBroadcastToRoom := false
           bidSuccessToSender := false })
  else
    let r := submitBidTx st req
    (r.1, { actionErrorToSender := r.2
            gameStateBroadcastToRoom := true
            bidSuccessToSender := true })

/-! ### Card-play sequencing (server.ts, `playCard` socket handler) -/

/-- A `played_cards_in_tricks` row (columns relevant to sequencing). -/
structure TrickPlayRow where
  gamePlayerId : Nat
  card : Card
  playSequenceInTrick : Nat
deriving DecidableEq, Repr

/-- The insert performed by the `playCard` handler once a play has been
validated: the new row's sequence number is
`existingPlays.length + 1`. -/
def appendCardToTrick (existingPlays : List TrickPlayRow)
    (gamePlayerId : Nat) (card : Card) : List TrickPlayRow :=
  existingPlays ++ [{ gamePlayerId := gamePlayerId
                      card := card
                      playSequenceInTrick := existingPlays.length + 1 }]

/-- The rows of one trick after the handler has processed the given
plays in order, starting from an empty trick. -/
def buildTrick (plays : List (Nat × Card)) : List TrickPlayRow :=
  plays.foldl (fun acc pc => appendCardToTrick acc pc.1 pc.2) []

/-! ### Broadcast payload (server.ts, `getGameDataForBroadcast`) -/

/-- A `player_round_hands` row (columns used by the broadcast). -/
structure HandRow where
  gamePlayerId : Nat
  roundNumber : Nat
  card : Card
  isPlayed : Bool
deriving DecidableEq, Repr

/-- One entry of the `players` array of the `gameStateUpdate` payload:
it carries the seat's full unplayed hand. -/
structure BroadcastPlayer where
  id : Nat
  playerOrder : Nat
  currentScore : Int
  currentBid : Option Int
  hand : List Card
deriving DecidableEq, Repr

/-- The per-player hand fetched by `getGameDataForBroadcast`: all
unplayed cards of the seat for the current round (empty before round
1). -/
def playerHandForBroadcast (handRows : List HandRow)
    (currentRound : Option Nat) (gpId : Nat) : List Card :=
  match currentRound with
  | some r =>
      if r > 0 then
        (handRows.filter (fun h =>
          h.gamePlayerId = gpId ∧ h.roundNumber = r ∧ h.isPlayed = false)).map
          (·.card)
      else []
  | none => []

/-- The `players` portion of the payload assembled by
`getGameDataForBroadcast` (user names and trick data omitted — they
are not per-seat private). -/
def getGameDataForBroadcast (session : SessionState)
    (handRows : List HandRow) (bids : List BidRow) :
    List BroadcastPlayer :=
  session.gamePlayers.map (fun gp =>
    { id := gp.id
      playerOrder := gp.playerOrder
      currentScore := gp.currentScore
      currentBid := (bids.find? (fun b =>
        b.gamePlayerId = gp.id ∧
        b.roundNumber = session.currentRound.getD 0)).map (·.bidAmount)
      hand := playerHandForBroadcast handRows session.currentRound gp.id })

/-- `io.to(game_<id>).emit('gameStateUpdate', payload)`: every client
in the session room receives the identical payload, regardless of which
seat the recipient holds. -/
def gameStateUpdateReceivedBy (payload : List BroadcastPlayer)
    (_recipientGamePlayerId : Nat) : List BroadcastPlayer :=
  payload

/-! ### Specification-side and proof-auxiliary definitions -/

/-- The rank ladder exactly as the spec words it:
`7 < 8 < 9 < 10 < JACK < QUEEN < KING < ACE` (0 = lowest). -/
def specRankValue : Rank → Nat
  | .R7 => 0
  | .R8 => 1
  | .R9 => 2
  | .R10 => 3
  | .JACK => 4
  | .QUEEN => 5
  | .KING => 6
  | .ACE => 7

/-- Proof auxiliary: the winning strength of a card in a trick with
lead suit `ls` and trump `ts`.  Trump cards outrank lead-suit cards,
which outrank off-suit cards; within the trump and lead classes the
rank decides; off-suit cards never contend. -/
def strength (ls ts : Suit) (c : Card) : Nat :=
  if c.suit = ts then 16 + specRankValue c.rank
  else if c.suit = ls then 8 + specRankValue c.rank
  else 0

/-- The running-winner loop of `determineTrickWinner`, as a named
function so the fold can be reasoned about. -/
def runningWinner (ls ts : Suit) (first : PlayedCard)
    (rest : List PlayedCard) : PlayedCard :=
  rest.foldl (fun winningPlayedCard currentPlayedCard =>
    if compareCardsInTrick currentPlayedCard.card winningPlayedCard.card
        (some ls) ts > 0 then
      currentPlayedCard
    else
      winningPlayedCard) first

/-! ### Helper lemmas -/

lemma hasSuit_eq_true_iff (hand : List Card) (s : Suit) :
    hasSuit hand s = true ↔ ∃ c ∈ hand, c.suit = s := by
  simp [hasSuit]

lemma find?_card_isNone_iff (hand : List Card) (c : Card) :
    (hand.find? (fun card =>
      card.suit = c.suit ∧ card.rank = c.rank)).isNone = true ↔ c ∉ hand := by
  rw [Option.isNone_iff_eq_none, List.find?_eq_none]
  constructor
  · intro h hc
    have := h c hc
    simp at this
  · intro h x hx
    simp only [decide_eq_true_eq, not_and]
    intro hsuit hrank
    have hxc : x = c := by cases x; cases c; simp_all
    exact h (hxc ▸ hx)

/-- The behaviour of `isValidPlay`, stated as the spec states it. -/
lemma isValidPlay_iff (hand : List Card) (c : Card) (ls : Option Suit)
    (ts : Suit) :
    isValidPlay hand c ls ts = true ↔
      c ∈ hand ∧
      (match ls with
        | none => True
        | some l =>
          if ∃ h ∈ hand, h.suit = l then c.suit = l
          else if ∃ h ∈ hand, h.suit = ts then c.suit = ts
          else True) := by
  unfold isValidPlay
  by_cases hc : c ∈ hand
  · have hfind : (hand.find? (fun card =>
        card.suit = c.suit ∧ card.rank = c.rank)).isNone = false := by
      rcases Bool.eq_false_or_eq_true ((hand.find? (fun card =>
        card.suit = c.suit ∧ card.rank = c.rank)).isNone) with h | h
      · rw [find?_card_isNone_iff] at h; exact absurd hc h
      · exact h
    rw [hfind]
    cases ls with
    | none => simp [hc]
    | some l =>
      simp only [Bool.false_eq_true, if_false, hc, true_and]
      by_cases hl : ∃ h ∈ hand, h.suit = l
      · rw [if_pos hl, if_pos ((hasSuit_eq_true_iff hand l).mpr hl)]
        simp
      · rw [if_neg hl, if_neg (by rw [hasSuit_eq_true_iff]; exact hl)]
        by_cases ht : ∃ h ∈ hand, h.suit = ts
        · rw [if_pos ht, if_pos ((hasSuit_eq_true_iff hand ts).mpr ht)]
          simp
        · rw [if_neg ht, if_neg (by rw [hasSuit_eq_true_iff]; exact ht)]
          simp
  · have hfind : (hand.find? (fun card =>
        card.suit = c.suit ∧ card.rank = c.rank)).isNone = true :=
      (find?_card_isNone_iff hand c).mpr hc
    rw [hfind]
    simp [hc]

lemma specRankValue_lt8 : ∀ r : Rank, specRankValue r < 8 := by decide

lemma indexOf_eq_specRankValue :
    ∀ r : Rank, RANK_ORDER.indexOf r = specRankValue r := by decide

lemma cmp_pos_iff_strength (a b : Card) (ls ts : Suit) :
    compareCardsInTrick a b (some ls) ts > 0 ↔
      strength ls ts b < strength ls ts a := by
  obtain ⟨sa, ra⟩ := a
  obtain ⟨sb, rb⟩ := b
  have h1 := specRankValue_lt8 ra
  have h2 := specRankValue_lt8 rb
  simp only [compareCardsInTrick, strength, indexOf_eq_specRankValue]
  by_cases hat : sa = ts <;> by_cases hbt : sb = ts <;>
    by_cases hal : sa = ls <;> by_cases hbl : sb = ls <;>
      (try simp_all) <;>
      omega

lemma strength_eq_of_pos :
    ∀ (ls ts : Suit) (a b : Card),
      strength ls ts a = strength ls ts b → 0 < strength ls ts a → a = b := by
  decide

lemma strength_self_pos (ts : Suit) (c : Card) : 0 < strength c.suit ts c := by
  unfold strength
  split_ifs with h1 h2
  · omega
  · omega
  · exact absurd rfl h2

lemma runningWinner_cons (ls ts : Suit) (first y : PlayedCard)
    (t : List PlayedCard) :
    runningWinner ls ts first (y :: t) =
      runningWinner ls ts
        (if compareCardsInTrick y.card first.card (some ls) ts > 0 then y
         else first) t := rfl

lemma runningWinner_mem (ls ts : Suit) :
    ∀ (rest : List PlayedCard) (first : PlayedCard),
      runningWinner ls ts first rest ∈ first :: rest := by
  intro rest
  induction rest with
  | nil => intro first; simp [runningWinner]
  | cons y t ih =>
    intro first
    rw [runningWinner_cons]
    by_cases hc : compareCardsInTrick y.card first.card (some ls) ts > 0
    · rw [if_pos hc]
      rcases List.mem_cons.mp (ih y) with h | h
      · simp [h]
      · simp [List.mem_cons, h]
    · rw [if_neg hc]
      rcases List.mem_cons.mp (ih first) with h | h
      · simp [h]
      · simp [List.mem_cons, h]

lemma runningWinner_strength_max (ls ts : Suit) :
    ∀ (rest : List PlayedCard) (first : PlayedCard),
      ∀ x ∈ first :: rest,
        strength ls ts x.card ≤
          strength ls ts (runningWinner ls ts first rest).card := by
  intro rest
  induction rest with
  | nil =>
    intro first x hx
    rcases List.mem_cons.mp hx with h | h
    · simp [runningWinner, h]
    · simp at h
  | cons y t ih =>
    intro first x hx
    rw [runningWinner_cons]
    set first' := if compareCardsInTrick y.card first.card (some ls) ts > 0
      then y else first with hfirst'
    have hxle : strength ls ts x.card ≤ strength ls ts first'.card ∨ x ∈ t := by
      rcases List.mem_cons.mp hx with h | h
      · left
        subst h
        by_cases hc : compareCardsInTrick y.card x.card (some ls) ts > 0
        · rw [hfirst', if_pos hc]
          exact le_of_lt ((cmp_pos_iff_strength y.card x.card ls ts).mp hc)
        · rw [hfirst', if_neg hc]
      · rcases List.mem_cons.mp h with h' | h'
        · left
          subst h'
          by_cases hc : compareCardsInTrick x.card first.card (some ls) ts > 0
          · rw [hfirst', if_pos hc]
          · rw [hfirst', if_neg hc]
            have := (cmp_pos_iff_strength x.card first.card ls ts).not.mp hc
            omega
        · right; exact h'
    rcases hxle with h | h
    · exact le_trans h (ih first' first' (List.mem_cons_self first' t))
    · exact ih first' x (List.mem_cons_of_mem first' h)


lemma isValidPlay_some_iff (hand : List Card) (c : Card) (l ts : Suit) :
    isValidPlay hand c (some l) ts = true ↔
      c ∈ hand ∧
      (if ∃ h ∈ hand, h.suit = l then c.suit = l
       else if ∃ h ∈ hand, h.suit = ts then c.suit = ts
       else True) :=
  isValidPlay_iff hand c (some l) ts

lemma isValidPlay_none_iff (hand : List Card) (c : Card) (ts : Suit) :
    isValidPlay hand c none ts = true ↔ c ∈ hand ∧ True :=
  isValidPlay_iff hand c none ts

lemma exists_validPlay (hand : List Card) (ls : Option Suit) (ts : Suit)
    (hne : hand ≠ []) : ∃ c ∈ hand, isValidPlay hand c ls ts = true := by
  cases ls with
  | none =>
    match hand, hne with
    | c :: t, _ =>
      refine ⟨c, List.mem_cons_self c t, ?_⟩
      rw [isValidPlay_none_iff]
      exact ⟨List.mem_cons_self c t, trivial⟩
  | some l =>
    by_cases hl : ∃ h ∈ hand, h.suit = l
    · obtain ⟨c, hc, hcl⟩ := hl
      refine ⟨c, hc, ?_⟩
      rw [isValidPlay_some_iff]
      refine ⟨hc, ?_⟩
      rw [if_pos (⟨c, hc, hcl⟩ : ∃ h ∈ hand, h.suit = l)]
      exact hcl
    · by_cases ht : ∃ h ∈ hand, h.suit = ts
      · obtain ⟨c, hc, hct⟩ := ht
        refine ⟨c, hc, ?_⟩
        rw [isValidPlay_some_iff]
        refine ⟨hc, ?_⟩
        rw [if_neg hl, if_pos (⟨c, hc, hct⟩ : ∃ h ∈ hand, h.suit = ts)]
        exact hct
      · match hand, hne with
        | c :: t, _ =>
          refine ⟨c, List.mem_cons_self c t, ?_⟩
          rw [isValidPlay_some_iff]
          refine ⟨List.mem_cons_self c t, ?_⟩
          rw [if_neg hl, if_neg ht]
          trivial

lemma simulateTrickStep_ok (ts : Suit) (si i : Nat)
    (players : List Player) (ls : Option Suit) (pl : List PlayedCard)
    (p : Player) (hp : players[(si + i) % 4]? = some p)
    (hne : p.hand ≠ []) :
    ∃ (j : Nat) (c : Card), p.hand[j]? = some c ∧
      simulateTrickStep ts si (players, ls, pl) i =
        Except.ok (players.set ((si + i) % 4)
            { p with hand := p.hand.eraseIdx j },
          (match ls with | none => some c.suit | some s => some s),
          pl ++ [⟨p.id, c⟩]) := by
  obtain ⟨c0, hc0, hv0⟩ := exists_validPlay p.hand ls ts hne
  have hany : p.hand.any (fun c => isValidPlay p.hand c ls ts) = true := by
    rw [List.any_eq_true]
    exact ⟨c0, hc0, hv0⟩
  have hsome : (p.hand.findIdx? (fun c => isValidPlay p.hand c ls ts)).isSome = true := by
    rw [List.findIdx?_isSome, hany]
  obtain ⟨j, hj⟩ := Option.isSome_iff_exists.mp hsome
  have hjlt : j < p.hand.length :=
    (List.findIdx?_eq_some_iff_findIdx_eq.mp hj).1
  refine ⟨j, p.hand[j], ?_, ?_⟩
  · simp [List.getElem?_eq_getElem hjlt]
  · simp only [simulateTrickStep, hp, hj, List.getElem?_eq_getElem hjlt]

lemma simulateTrickLoop_ok (ts : Suit) (si : Nat) :
    ∀ (idxs : List Nat) (players : List Player) (ls : Option Suit)
      (pl : List PlayedCard),
      players.length = 4 →
      idxs.Pairwise (fun a b => (si + a) % 4 ≠ (si + b) % 4) →
      (∀ i ∈ idxs, ∃ p, players[(si + i) % 4]? = some p ∧ p.hand ≠ []) →
      ∃ players' ls' pl',
        idxs.foldlM (simulateTrickStep ts si) (players, ls, pl) =
          Except.ok (players', ls', pl') ∧
        pl'.length = pl.length + idxs.length := by
  intro idxs
  induction idxs with
  | nil =>
    intro players ls pl h4 hpw hinv
    exact ⟨players, ls, pl, rfl, by simp⟩
  | cons i t ih =>
    intro players ls pl h4 hpw hinv
    obtain ⟨p, hp, hne⟩ := hinv i (List.mem_cons_self i t)
    obtain ⟨j, c, hj, hstep⟩ := simulateTrickStep_ok ts si i players ls pl p hp hne
    obtain ⟨hhead, htail⟩ := List.pairwise_cons.mp hpw
    have h4' : (players.set ((si + i) % 4)
        { p with hand := p.hand.eraseIdx j }).length = 4 := by
      rw [List.length_set]; exact h4
    have hinv' : ∀ i' ∈ t, ∃ p',
        (players.set ((si + i) % 4)
          { p with hand := p.hand.eraseIdx j })[(si + i') % 4]? = some p' ∧
        p'.hand ≠ [] := by
      intro i' hi'
      obtain ⟨p', hp', hne'⟩ := hinv i' (List.mem_cons_of_mem i hi')
      refine ⟨p', ?_, hne'⟩
      rw [List.getElem?_set_ne (hhead i' hi')]
      exact hp'
    obtain ⟨players', ls', pl', hfold, hlen⟩ :=
      ih _ _ _ h4' htail hinv'
    refine ⟨players', ls', pl', ?_, ?_⟩
    · rw [List.foldlM_cons, hstep]
      simpa using hfold
    · rw [hlen]
      simp [List.length_append]
      omega


lemma potentialWinners_go :
    ∀ (l : List GamePlayerRow) (t : Int) (ws : List GamePlayerRow),
      ws ≠ [] →
      (∀ w ∈ ws, w.currentScore = t) →
      ∃ T W,
        l.foldl (fun acc player =>
          match acc with
          | (none, _) => (some player.currentScore, [player])
          | (some topScore, winners) =>
            if player.currentScore > topScore then
              (some player.currentScore, [player])
            else if player.currentScore = topScore then
              (some topScore, winners ++ [player])
            else
              (some topScore, winners)) (some t, ws) = (some T, W) ∧
        W ≠ [] ∧
        (∀ w ∈ W, w.currentScore = T) ∧
        t ≤ T ∧
        (∀ p ∈ l, p.currentScore ≤ T) ∧
        (∀ w ∈ W, w ∈ ws ∨ w ∈ l) ∧
        (∀ p ∈ l, p.currentScore = T → p ∈ W) ∧
        (∀ w ∈ ws, w.currentScore = T → w ∈ W) := by
  intro l
  induction l with
  | nil =>
    intro t ws hne hsc
    exact ⟨t, ws, rfl, hne, hsc, le_refl t, by simp, fun w hw => Or.inl hw,
      by simp, fun w hw _ => hw⟩
  | cons p l' ih =>
    intro t ws hne hsc
    rw [List.foldl_cons]
    by_cases hgt : p.currentScore > t
    · simp only [if_pos hgt]
      obtain ⟨T, W, hfold, hWne, hWsc, htle, hlle, horig, hlin, hwsin⟩ :=
        ih p.currentScore [p] (by simp) (by simp)
      refine ⟨T, W, hfold, hWne, hWsc, le_trans (le_of_lt hgt) htle, ?_, ?_, ?_, ?_⟩
      · intro q hq
        rcases List.mem_cons.mp hq with h | h
        · subst h; exact htle
        · exact hlle q h
      · intro w hw
        rcases horig w hw with h | h
        · simp at h
          exact Or.inr (by rw [h]; exact List.mem_cons_self _ _)
        · exact Or.inr (List.mem_cons_of_mem p h)
      · intro q hq hqT
        rcases List.mem_cons.mp hq with h | h
        · subst h
          exact hwsin q (by simp) hqT
        · exact hlin q h hqT
      · intro w hw hwT
        have : w.currentScore = t := hsc w hw
        omega
    · by_cases heq : p.currentScore = t
      · simp only [if_neg hgt, if_pos heq]
        obtain ⟨T, W, hfold, hWne, hWsc, htle, hlle, horig, hlin, hwsin⟩ :=
          ih t (ws ++ [p]) (by simp) (by
            intro w hw
            rcases List.mem_append.mp hw with h | h
            · exact hsc w h
            · simp at h; subst h; exact heq)
        refine ⟨T, W, hfold, hWne, hWsc, htle, ?_, ?_, ?_, ?_⟩
        · intro q hq
          rcases List.mem_cons.mp hq with h | h
          · subst h; omega
          · exact hlle q h
        · intro w hw
          rcases horig w hw with h | h
          · rcases List.mem_append.mp h with h' | h'
            · exact Or.inl h'
            · simp at h'
              exact Or.inr (by rw [h']; exact List.mem_cons_self _ _)
          · exact Or.inr (List.mem_cons_of_mem p h)
        · intro q hq hqT
          rcases List.mem_cons.mp hq with h | h
          · subst h
            exact hwsin q (List.mem_append.mpr (Or.inr (by simp))) hqT
          · exact hlin q h hqT
        · intro w hw hwT
          exact hwsin w (List.mem_append.mpr (Or.inl hw)) hwT
      · have hlt : p.currentScore < t := by omega
        simp only [if_neg hgt, if_neg heq]
        obtain ⟨T, W, hfold, hWne, hWsc, htle, hlle, horig, hlin, hwsin⟩ :=
          ih t ws hne hsc
        refine ⟨T, W, hfold, hWne, hWsc, htle, ?_, ?_, ?_, hwsin⟩
        · intro q hq
          rcases List.mem_cons.mp hq with h | h
          · subst h; omega
          · exact hlle q h
        · intro w hw
          rcases horig w hw with h | h
          · exact Or.inl h
          · exact Or.inr (List.mem_cons_of_mem p h)
        · intro q hq hqT
          rcases List.mem_cons.mp hq with h | h
          · subst h; omega
          · exact hlin q h hqT

lemma potentialWinnersOf_spec (players : List GamePlayerRow)
    (hne : players ≠ []) :
    ∃ T, potentialWinnersOf players ≠ [] ∧
      (∀ w ∈ potentialWinnersOf players, w ∈ players) ∧
      (∀ w ∈ potentialWinnersOf players, w.currentScore = T) ∧
      (∀ p ∈ players, p.currentScore ≤ T) ∧
      (∀ p ∈ players, p.currentScore = T → p ∈ potentialWinnersOf players) := by
  match players, hne with
  | p :: rest, _ =>
    obtain ⟨T, W, hfold, hWne, hWsc, htle, hlle, horig, hlin, hwsin⟩ :=
      potentialWinners_go rest p.currentScore [p] (by simp) (by simp)
    have hpw : potentialWinnersOf (p :: rest) = W := by
      unfold potentialWinnersOf
      rw [List.foldl_cons]
      simp only []
      rw [hfold]
    refine ⟨T, by rw [hpw]; exact hWne, ?_, ?_, ?_, ?_⟩
    · intro w hw
      rw [hpw] at hw
      rcases horig w hw with h | h
      · simp at h; rw [h]; exact List.mem_cons_self p rest
      · exact List.mem_cons_of_mem p h
    · intro w hw
      rw [hpw] at hw
      exact hWsc w hw
    · intro q hq
      rcases List.mem_cons.mp hq with h | h
      · subst h; exact htle
      · exact hlle q h
    · intro q hq hqT
      rw [hpw]
      rcases List.mem_cons.mp hq with h | h
      · subst h
        exact hwsin q (by simp) hqT
      · exact hlin q h hqT


lemma mergeSort_playerOrder_head (W : List GamePlayerRow) (hne : W ≠ []) :
    ∃ w tail,
      W.mergeSort (fun a b => a.playerOrder ≤ b.playerOrder) = w :: tail ∧
      w ∈ W ∧ ∀ x ∈ W, w.playerOrder ≤ x.playerOrder := by
  have hperm := List.mergeSort_perm W
    (fun a b : GamePlayerRow => a.playerOrder ≤ b.playerOrder)
  have hsorted := @List.sorted_mergeSort GamePlayerRow
    (fun a b : GamePlayerRow => a.playerOrder ≤ b.playerOrder)
    (fun a b c hab hbc => by
      simp only [decide_eq_true_eq] at hab hbc ⊢
      omega)
    (fun a b => by
      simp only [Bool.or_eq_true, decide_eq_true_eq]
      exact Nat.le_total a.playerOrder b.playerOrder)
    W
  match hms : W.mergeSort (fun a b => a.playerOrder ≤ b.playerOrder) with
  | [] =>
    rw [hms] at hperm
    have hlen := hperm.length_eq
    match W, hne with
    | q :: t, _ => simp at hlen
  | w :: tail =>
    rw [hms] at hperm hsorted
    refine ⟨w, tail, rfl, hperm.subset (List.mem_cons_self w tail), ?_⟩
    intro x hx
    have hx' : x ∈ w :: tail := (hperm.mem_iff).mpr hx
    rcases List.mem_cons.mp hx' with h | h
    · rw [h]
    · have := (List.pairwise_cons.mp hsorted).1 x h
      simpa using this

/-! ### Claim theorems -/

/-- C1: `determineTrickWinner` fails (returns no value) on zero plays,
and on a non-empty trick whose cards are pairwise distinct it returns a
play from the input list whose card beats every other play under
`compareCardsInTrick` seeded with the first play's suit as lead suit
and the given trump. -/
theorem determineTrickWinner_spec (ts : Suit) :
    determineTrickWinner [] ts = none ∧
    ∀ (first : PlayedCard) (rest : List PlayedCard),
      (first :: rest).Pairwise (fun x y => x.card ≠ y.card) →
      ∃ w, determineTrickWinner (first :: rest) ts = some w ∧
        w ∈ first :: rest ∧
        ∀ x ∈ first :: rest, x ≠ w →
          compareCardsInTrick w.card x.card (some first.card.suit) ts > 0 := by
  constructor
  · rfl
  · intro first rest hpw
    set L := first.card.suit with hL
    refine ⟨runningWinner L ts first rest, rfl,
      runningWinner_mem L ts rest first, ?_⟩
    intro x hx hxw
    set w := runningWinner L ts first rest with hw
    have hwmem : w ∈ first :: rest := runningWinner_mem L ts rest first
    have hxle : strength L ts x.card ≤ strength L ts w.card :=
      runningWinner_strength_max L ts rest first x hx
    have hwpos : 0 < strength L ts w.card := by
      have hfle : strength L ts first.card ≤ strength L ts w.card :=
        runningWinner_strength_max L ts rest first first
          (List.mem_cons_self first rest)
      have := strength_self_pos ts first.card
      rw [← hL] at this
      omega
    have hne : x.card ≠ w.card := by
      have hsymm : Symmetric (fun a b : PlayedCard => a.card ≠ b.card) := by
        intro a b h
        exact fun hc => h hc.symm
      exact hpw.forall hsymm hx hwmem hxw
    have hlt : strength L ts x.card < strength L ts w.card := by
      rcases lt_or_eq_of_le hxle with h | h
      · exact h
      · exact absurd (strength_eq_of_pos L ts x.card w.card h (h ▸ hwpos)) hne
    exact (cmp_pos_iff_strength w.card x.card L ts).mpr hlt

/-- C1 counterexample: the claim quantifies over every non-empty list
of plays, but on a list whose two plays carry the same card the
returned play does not beat the other play — the comparison of equal
cards reports the incumbent as higher. -/
theorem determineTrickWinner_counterexample :
    determineTrickWinner
        [⟨"p1", ⟨Suit.SPADES, Rank.ACE⟩⟩, ⟨"p2", ⟨Suit.SPADES, Rank.ACE⟩⟩]
        Suit.HEARTS = some ⟨"p1", ⟨Suit.SPADES, Rank.ACE⟩⟩ ∧
    ¬ compareCardsInTrick (⟨Suit.SPADES, Rank.ACE⟩ : Card)
        ⟨Suit.SPADES, Rank.ACE⟩ (some Suit.SPADES) Suit.HEARTS > 0 := by
  decide

/-- Witness for C1 at the spec's trick-win scenario: lead SPADES,
trump DIAMONDS, plays ♠A ♦7 ♠K ♠Q. -/
theorem determineTrickWinner_spec_witness :
    ∃ w, determineTrickWinner
        (⟨"a", ⟨Suit.SPADES, Rank.ACE⟩⟩ ::
          [⟨"b", ⟨Suit.DIAMONDS, Rank.R7⟩⟩,
           ⟨"c", ⟨Suit.SPADES, Rank.KING⟩⟩,
           ⟨"d", ⟨Suit.SPADES, Rank.QUEEN⟩⟩])
        Suit.DIAMONDS = some w ∧
      w ∈ ⟨"a", ⟨Suit.SPADES, Rank.ACE⟩⟩ ::
          [⟨"b", ⟨Suit.DIAMONDS, Rank.R7⟩⟩,
           ⟨"c", ⟨Suit.SPADES, Rank.KING⟩⟩,
           ⟨"d", ⟨Suit.SPADES, Rank.QUEEN⟩⟩] ∧
      ∀ x ∈ ⟨"a", ⟨Suit.SPADES, Rank.ACE⟩⟩ ::
          [⟨"b", ⟨Suit.DIAMONDS, Rank.R7⟩⟩,
           ⟨"c", ⟨Suit.SPADES, Rank.KING⟩⟩,
           ⟨"d", ⟨Suit.SPADES, Rank.QUEEN⟩⟩], x ≠ w →
        compareCardsInTrick w.card x.card (some Suit.SPADES) Suit.DIAMONDS > 0 :=
  (determineTrickWinner_spec Suit.DIAMONDS).2
    ⟨"a", ⟨Suit.SPADES, Rank.ACE⟩⟩
    [⟨"b", ⟨Suit.DIAMONDS, Rank.R7⟩⟩,
     ⟨"c", ⟨Suit.SPADES, Rank.KING⟩⟩,
     ⟨"d", ⟨Suit.SPADES, Rank.QUEEN⟩⟩] (by decide)

/-- C4: `compareCardsInTrick` ranks trump over non-trump; two trumps by
rank under the fixed order 7 < 8 < 9 < 10 < JACK < QUEEN < KING < ACE;
among non-trumps, lead suit over off-suit and two lead-suit cards by
that rank order; and between two cards that are neither lead nor trump
it reports no winner (0). -/
theorem compareCardsInTrick_spec :
    ∀ (a b : Card) (ls ts : Suit),
      (a.suit = ts ∧ b.suit ≠ ts → compareCardsInTrick a b (some ls) ts = 1) ∧
      (a.suit ≠ ts ∧ b.suit = ts → compareCardsInTrick a b (some ls) ts = -1) ∧
      (a.suit = ts ∧ b.suit = ts →
        (specRankValue b.rank < specRankValue a.rank →
          compareCardsInTrick a b (some ls) ts = 1) ∧
        (specRankValue a.rank < specRankValue b.rank →
          compareCardsInTrick a b (some ls) ts = -1)) ∧
      (a.suit ≠ ts ∧ b.suit ≠ ts →
        (a.suit = ls ∧ b.suit ≠ ls → compareCardsInTrick a b (some ls) ts = 1) ∧
        (a.suit ≠ ls ∧ b.suit = ls → compareCardsInTrick a b (some ls) ts = -1) ∧
        (a.suit = ls ∧ b.suit = ls →
          (specRankValue b.rank < specRankValue a.rank →
            compareCardsInTrick a b (some ls) ts = 1) ∧
          (specRankValue a.rank < specRankValue b.rank →
            compareCardsInTrick a b (some ls) ts = -1)) ∧
        (a.suit ≠ ls ∧ b.suit ≠ ls → compareCardsInTrick a b (some ls) ts = 0)) := by
  intro a b ls ts
  obtain ⟨sa, ra⟩ := a
  obtain ⟨sb, rb⟩ := b
  simp only [compareCardsInTrick, indexOf_eq_specRankValue]
  refine ⟨?_, ?_, ?_, ?_⟩
  · rintro ⟨ha, hb⟩
    simp_all
  · rintro ⟨ha, hb⟩
    simp_all
  · rintro ⟨ha, hb⟩
    constructor
    · intro hr
      simp_all [Nat.not_lt.mpr (le_of_lt hr)]
    · intro hr
      simp_all [Nat.not_lt.mpr (le_of_lt hr)]
  · rintro ⟨ha, hb⟩
    refine ⟨?_, ?_, ?_, ?_⟩
    · rintro ⟨hl, hnl⟩
      simp_all
    · rintro ⟨hnl, hl⟩
      simp_all
    · rintro ⟨hl1, hl2⟩
      constructor
      · intro hr
        simp_all [Nat.not_lt.mpr (le_of_lt hr)]
      · intro hr
        simp_all [Nat.not_lt.mpr (le_of_lt hr)]
    · rintro ⟨hn1, hn2⟩
      simp_all

/-- Witness for C4: a trump 7 beats a lead-suit ACE, and two off-suit
cards yield no winner. -/
theorem compareCardsInTrick_spec_witness :
    compareCardsInTrick ⟨Suit.HEARTS, Rank.R7⟩ ⟨Suit.SPADES, Rank.ACE⟩
        (some Suit.SPADES) Suit.HEARTS = 1 ∧
    compareCardsInTrick ⟨Suit.CLUBS, Rank.R9⟩ ⟨Suit.DIAMONDS, Rank.R8⟩
        (some Suit.SPADES) Suit.HEARTS = 0 :=
  ⟨(compareCardsInTrick_spec ⟨Suit.HEARTS, Rank.R7⟩ ⟨Suit.SPADES, Rank.ACE⟩
      Suit.SPADES Suit.HEARTS).1 ⟨rfl, by decide⟩,
   ((compareCardsInTrick_spec ⟨Suit.CLUBS, Rank.R9⟩ ⟨Suit.DIAMONDS, Rank.R8⟩
      Suit.SPADES Suit.HEARTS).2.2.2 ⟨by decide, by decide⟩).2.2.2
      ⟨by decide, by decide⟩⟩

/-- C2: for all integers `bid` and `tricksTaken`, `calculatePlayerScore`
returns `10 + 3 × tricksTaken` when `tricksTaken = bid` and
`-3 × |bid − tricksTaken|` otherwise; in particular bid 3, taken 3
scores 19 and bid 3, taken 1 scores -6. -/
theorem calculatePlayerScore_spec :
    (∀ bid tricksTaken : Int,
      (tricksTaken = bid →
        calculatePlayerScore bid tricksTaken = 10 + 3 * tricksTaken) ∧
      (tricksTaken ≠ bid →
        calculatePlayerScore bid tricksTaken = -3 * |bid - tricksTaken|)) ∧
    calculatePlayerScore 3 3 = 19 ∧ calculatePlayerScore 3 1 = -6 := by
  refine ⟨fun bid tricksTaken => ⟨fun h => ?_, fun h => ?_⟩, by decide, by decide⟩ <;>
    simp [calculatePlayerScore, h]

/-- Witness for C2 at bid 2 / taken 2 and bid 5 / taken 2. -/
theorem calculatePlayerScore_spec_witness :
    calculatePlayerScore 2 2 = 10 + 3 * 2 ∧
    calculatePlayerScore 5 2 = -3 * |5 - 2| :=
  ⟨(calculatePlayerScore_spec.1 2 2).1 rfl,
   (calculatePlayerScore_spec.1 5 2).2 (by decide)⟩

/-- C3: `isValidPlay` accepts exactly the cards the spec describes:
the card must be in the hand; with no lead suit any in-hand card is
valid; otherwise lead suit must be followed when held, else trump must
be played when held, else any in-hand card is a valid discard. -/
theorem isValidPlay_spec :
    ∀ (hand : List Card) (c : Card) (ls : Option Suit) (ts : Suit),
      isValidPlay hand c ls ts = true ↔
        c ∈ hand ∧
        (match ls with
          | none => True
          | some l =>
            if ∃ h ∈ hand, h.suit = l then c.suit = l
            else if ∃ h ∈ hand, h.suit = ts then c.suit = ts
            else True) :=
  isValidPlay_iff

/-- C9: a continuation trigger (manual `proceedToNextRound` or the
auto-advance timeout) that runs while the session is not in
`round_summary` performs no session update and emits no error to any
client. -/
theorem triggerGameContinuation_wrong_phase_noop :
    ∀ (s : SessionState) (trump : Suit),
      s.status ≠ GameStatus.round_summary →
      triggerGameContinuation (some s) trump =
        { sessionUpdate := none, errorEmitted := false } := by
  intro s trump h
  simp [triggerGameContinuation, h]

/-- Witness for C9: a session in `active_play` is left untouched. -/
theorem triggerGameContinuation_wrong_phase_noop_witness :
    triggerGameContinuation
      (some { id := 1, status := GameStatus.active_play,
              currentRound := some 3, currentDealerId := some 1,
              currentTurnGamePlayerId := some 2,
              trumpSuit := some Suit.HEARTS,
              currentTrickNumberInRound := some 1,
              gamePlayers := [⟨1, 0, 0⟩, ⟨2, 1, 0⟩, ⟨3, 2, 0⟩, ⟨4, 3, 0⟩] })
      Suit.SPADES = { sessionUpdate := none, errorEmitted := false } :=
  triggerGameContinuation_wrong_phase_noop _ _ (by decide)

lemma buildTrick_go (plays : List (Nat × Card)) :
    ∀ (acc : List TrickPlayRow),
      ((plays.foldl (fun a pc => appendCardToTrick a pc.1 pc.2) acc).map
          (·.playSequenceInTrick) =
        acc.map (·.playSequenceInTrick) ++
          List.range' (acc.length + 1) plays.length) ∧
      ((plays.foldl (fun a pc => appendCardToTrick a pc.1 pc.2) acc).map
          (·.gamePlayerId) =
        acc.map (·.gamePlayerId) ++ plays.map (·.1)) := by
  induction plays with
  | nil => intro acc; simp
  | cons pc t ih =>
    intro acc
    obtain ⟨ih1, ih2⟩ := ih (appendCardToTrick acc pc.1 pc.2)
    constructor
    · rw [List.foldl_cons, ih1]
      simp [appendCardToTrick, List.range'_succ]
    · rw [List.foldl_cons, ih2]
      simp [appendCardToTrick]

/-- C8 as amended: the `playCard` handler numbers the cards of a trick
1–4, not 0–3: the first card of a trick is stored with
`playSequenceInTrick` 1 and each subsequent card with the next integer,
strictly increasing, one row per submitted play, with no duplicate
sequence numbers within a trick. -/
theorem playCard_sequence_spec :
    ∀ (plays : List (Nat × Card)),
      ((buildTrick plays).map (·.playSequenceInTrick) =
        List.range' 1 plays.length) ∧
      ((buildTrick plays).map (·.playSequenceInTrick)).Pairwise (· < ·) ∧
      ((buildTrick plays).map (·.gamePlayerId) = plays.map (·.1)) ∧
      (plays.length ≤ 4 →
        ∀ r ∈ buildTrick plays,
          1 ≤ r.playSequenceInTrick ∧ r.playSequenceInTrick ≤ 4) := by
  intro plays
  obtain ⟨h1, h2⟩ := buildTrick_go plays []
  simp only [List.map_nil, List.length_nil, Nat.zero_add, List.nil_append] at h1 h2
  have h1' : (buildTrick plays).map (·.playSequenceInTrick) =
      List.range' 1 plays.length := h1
  have h2' : (buildTrick plays).map (·.gamePlayerId) = plays.map (·.1) := h2
  refine ⟨h1', ?_, h2', ?_⟩
  · rw [h1']
    exact List.pairwise_lt_range' 1 plays.length
  · intro hlen r hr
    have hmem : r.playSequenceInTrick ∈
        (buildTrick plays).map (·.playSequenceInTrick) :=
      List.mem_map_of_mem _ hr
    rw [h1'] at hmem
    have := List.mem_range'_1.mp hmem
    omega

/-- C8 counterexample: the first card of a trick is inserted with
`playSequenceInTrick = existingPlays.length + 1 = 1`, not 0 as the
claim states. -/
theorem playCard_sequence_counterexample :
    buildTrick [(7, ⟨Suit.HEARTS, Rank.R7⟩)] =
      [{ gamePlayerId := 7, card := ⟨Suit.HEARTS, Rank.R7⟩,
         playSequenceInTrick := 1 }] ∧
    (1 : Nat) ≠ 0 := by
  decide

/-- Witness for C8 at a full 4-card trick. -/
theorem playCard_sequence_spec_witness :
    ((buildTrick [(1, ⟨Suit.HEARTS, Rank.R7⟩), (2, ⟨Suit.HEARTS, Rank.R8⟩),
        (3, ⟨Suit.HEARTS, Rank.R9⟩), (4, ⟨Suit.HEARTS, Rank.R10⟩)]).map
      (·.playSequenceInTrick) = List.range' 1 4) ∧
    ∀ r ∈ buildTrick [(1, ⟨Suit.HEARTS, Rank.R7⟩), (2, ⟨Suit.HEARTS, Rank.R8⟩),
        (3, ⟨Suit.HEARTS, Rank.R9⟩), (4, ⟨Suit.HEARTS, Rank.R10⟩)],
      1 ≤ r.playSequenceInTrick ∧ r.playSequenceInTrick ≤ 4 :=
  ⟨(playCard_sequence_spec _).1,
   (playCard_sequence_spec _).2.2.2 (by decide)⟩

/-- C7: when a bid already exists for the submitting (seat, round), a
second `submitBid` leaves the database state — the stored first bid,
the session status and the turn pointer — unchanged, and the
`actionError` event (the only error emission, unicast to the
submitter) is sent. -/
theorem submitBid_duplicate_rejected :
    ∀ (st : DbState) (req : BidRequest) (b : BidRow),
      b ∈ st.bids →
      b.gamePlayerId = req.gamePlayerId →
      b.roundNumber = req.roundNumber →
      (submitBid st req).1 = st ∧
      ((submitBid st req).2.actionErrorToSender).isSome = true := by
  intro st req b hb hbp hbr
  have hfind : (st.bids.find? (fun b' =>
      b'.gamePlayerId = req.gamePlayerId ∧
      b'.roundNumber = req.roundNumber)).isSome = true := by
    rw [List.find?_isSome]
    exact ⟨b, hb, by simp [hbp, hbr]⟩
  simp only [submitBid, submitBidTx]
  split_ifs with h0 h1 h2 h3 h4 h5 <;> exact ⟨rfl, rfl⟩

/-- Witness for C7: seat 1 re-bids in round 1 after its bid was
recorded; nothing changes and an error is unicast. -/
theorem submitBid_duplicate_rejected_witness :
    (submitBid
        { session := { id := 1, status := GameStatus.bidding,
                       currentRound := some 1, currentDealerId := some 1,
                       currentTurnGamePlayerId := some 1,
                       trumpSuit := some Suit.HEARTS,
                       currentTrickNumberInRound := some 1,
                       gamePlayers := [⟨1, 0, 0⟩, ⟨2, 1, 0⟩, ⟨3, 2, 0⟩, ⟨4, 3, 0⟩] }
          bids := [⟨1, 1, 1, 0⟩] }
        ⟨1, 1, 0, 1⟩).1 =
      { session := { id := 1, status := GameStatus.bidding,
                     currentRound := some 1, currentDealerId := some 1,
                     currentTurnGamePlayerId := some 1,
                     trumpSuit := some Suit.HEARTS,
                     currentTrickNumberInRound := some 1,
                     gamePlayers := [⟨1, 0, 0⟩, ⟨2, 1, 0⟩, ⟨3, 2, 0⟩, ⟨4, 3, 0⟩] }
        bids := [⟨1, 1, 1, 0⟩] } ∧
    ((submitBid
        { session := { id := 1, status := GameStatus.bidding,
                       currentRound := some 1, currentDealerId := some 1,
                       currentTurnGamePlayerId := some 1,
                       trumpSuit := some Suit.HEARTS,
                       currentTrickNumberInRound := some 1,
                       gamePlayers := [⟨1, 0, 0⟩, ⟨2, 1, 0⟩, ⟨3, 2, 0⟩, ⟨4, 3, 0⟩] }
          bids := [⟨1, 1, 1, 0⟩] }
        ⟨1, 1, 0, 1⟩).2.actionErrorToSender).isSome = true :=
  submitBid_duplicate_rejected _ _ ⟨1, 1, 1, 0⟩ (by decide) (by decide) (by decide)

/-- C10: every non-empty hand contains at least one card that
`isValidPlay` accepts, for every lead suit (including none) and trump;
consequently `simulateTrick` never reaches its cannot-find-a-valid-card
error (nor any other error) when all 4 players hold at least one
card. -/
theorem validPlay_always_exists :
    (∀ (hand : List Card) (ls : Option Suit) (ts : Suit), hand ≠ [] →
      ∃ c ∈ hand, isValidPlay hand c ls ts = true) ∧
    (∀ (players : List Player) (startingPlayerIndex : Nat) (ts : Suit),
      players.length = 4 → startingPlayerIndex < 4 →
      (∀ p ∈ players, p.hand ≠ []) →
      ∃ r, simulateTrick players startingPlayerIndex ts = Except.ok r) := by
  constructor
  · exact fun hand ls ts hne => exists_validPlay hand ls ts hne
  · intro players si ts h4 hsi hh
    have hpw : (List.range 4).Pairwise
        (fun a b => (si + a) % 4 ≠ (si + b) % 4) := by
      have hlt : (List.range 4).Pairwise (· < ·) := List.pairwise_lt_range 4
      refine hlt.imp_of_mem ?_
      intro a b ha hb hab
      have ha4 : a < 4 := List.mem_range.mp ha
      have hb4 : b < 4 := List.mem_range.mp hb
      omega
    have hinv : ∀ i ∈ List.range 4, ∃ p,
        players[(si + i) % 4]? = some p ∧ p.hand ≠ [] := by
      intro i _
      have hlt : (si + i) % 4 < players.length := by
        rw [h4]; exact Nat.mod_lt _ (by norm_num)
      refine ⟨players[(si + i) % 4], List.getElem?_eq_getElem hlt, ?_⟩
      exact hh _ (List.getElem_mem hlt)
    obtain ⟨players', ls', pl', hfold, hlen⟩ :=
      simulateTrickLoop_ok ts si (List.range 4) players none [] h4 hpw hinv
    simp only [List.length_nil, List.length_range, Nat.zero_add] at hlen
    obtain ⟨w, hw⟩ : ∃ w, determineTrickWinner pl' ts = some w := by
      match pl', hlen with
      | (x :: xs), _ => exact ⟨_, rfl⟩
    refine ⟨(pl', w), ?_⟩
    unfold simulateTrick
    rw [if_neg (by omega), if_neg (by omega)]
    simp only [bind, Except.bind, hfold, hw]

/-- Witness for C10: a singleton hand leading a trick, and a 1-card
trick simulation among 4 players. -/
theorem validPlay_always_exists_witness :
    (∃ c ∈ [(⟨Suit.HEARTS, Rank.R7⟩ : Card)],
        isValidPlay [⟨Suit.HEARTS, Rank.R7⟩] c none Suit.SPADES = true) ∧
    (∃ r, simulateTrick
        [⟨"p0", [⟨Suit.HEARTS, Rank.R7⟩]⟩, ⟨"p1", [⟨Suit.CLUBS, Rank.R8⟩]⟩,
         ⟨"p2", [⟨Suit.SPADES, Rank.R9⟩]⟩, ⟨"p3", [⟨Suit.DIAMONDS, Rank.ACE⟩]⟩]
        0 Suit.HEARTS = Except.ok r) :=
  ⟨validPlay_always_exists.1 _ none Suit.SPADES (by decide),
   validPlay_always_exists.2 _ 0 Suit.HEARTS (by decide) (by decide) (by decide)⟩

/-- C6: advancing the summary of the last scheduled round finishes the
game: the update sets the status to `finished`, clears the turn
pointer, and persists as winner a seated player whose cumulative score
is highest, with ties among top scorers broken in favour of the lowest
`playerOrder`. -/
theorem gameEnd_winner_spec :
    ∀ (s : SessionState) (trump : Suit),
      s.status = GameStatus.round_summary →
      s.currentRound = some ROUND_DISTRIBUTION.length →
      s.gamePlayers ≠ [] →
      ∃ u w,
        triggerGameContinuation (some s) trump =
          { sessionUpdate := some u, errorEmitted := false } ∧
        u.status = some GameStatus.finished ∧
        u.currentTurnGamePlayerId = some none ∧
        u.winnerGamePlayerId = some w.id ∧
        w ∈ s.gamePlayers ∧
        (∀ p ∈ s.gamePlayers, p.currentScore ≤ w.currentScore) ∧
        (∀ p ∈ s.gamePlayers, p.currentScore = w.currentScore →
          w.playerOrder ≤ p.playerOrder) := by
  intro s trump hstatus hround hne
  obtain ⟨T, hWne, hWsub, hWsc, hTub, hTin⟩ := potentialWinnersOf_spec s.gamePlayers hne
  obtain ⟨w, tail, hms, hwW, hwmin⟩ :=
    mergeSort_playerOrder_head (potentialWinnersOf s.gamePlayers) hWne
  have htrig : triggerGameContinuation (some s) trump =
      { sessionUpdate := some (handleRoundCompletionOrGameEnd
          s.currentRound s.currentDealerId s.gamePlayers trump)
        errorEmitted := false } := by
    simp only [triggerGameContinuation]
    rw [if_neg (by simp [hstatus])]
  have hhand : handleRoundCompletionOrGameEnd
      s.currentRound s.currentDealerId s.gamePlayers trump =
      { status := some GameStatus.finished
        currentTurnGamePlayerId := some none
        winnerGamePlayerId := some w.id } := by
    rw [hround]
    simp only [handleRoundCompletionOrGameEnd]
    rw [if_pos (Nat.lt_succ_self ROUND_DISTRIBUTION.length), hms]
  refine ⟨_, w, htrig, ?_, ?_, ?_, hWsub w hwW, ?_, ?_⟩
  · rw [hhand]
  · rw [hhand]
  · rw [hhand]
  · intro p hp
    have := hTub p hp
    have := hWsc w hwW
    omega
  · intro p hp hpT
    have hwT : w.currentScore = T := hWsc w hwW
    exact hwmin p (hTin p hp (by omega))

/-- Witness for C6: round 17 ends with seats 1 and 2 tied on top. -/
theorem gameEnd_winner_spec_witness :
    ∃ u w,
      triggerGameContinuation
        (some { id := 1, status := GameStatus.round_summary,
                currentRound := some ROUND_DISTRIBUTION.length,
                currentDealerId := some 1,
                currentTurnGamePlayerId := none,
                trumpSuit := some Suit.HEARTS,
                currentTrickNumberInRound := some 1,
                gamePlayers := [⟨1, 0, 10⟩, ⟨2, 1, 10⟩, ⟨3, 2, 5⟩, ⟨4, 3, 0⟩] })
        Suit.SPADES =
        { sessionUpdate := some u, errorEmitted := false } ∧
      u.status = some GameStatus.finished ∧
      u.currentTurnGamePlayerId = some none ∧
      u.winnerGamePlayerId = some w.id ∧
      w ∈ [(⟨1, 0, 10⟩ : GamePlayerRow), ⟨2, 1, 10⟩, ⟨3, 2, 5⟩, ⟨4, 3, 0⟩] ∧
      (∀ p ∈ [(⟨1, 0, 10⟩ : GamePlayerRow), ⟨2, 1, 10⟩, ⟨3, 2, 5⟩, ⟨4, 3, 0⟩],
        p.currentScore ≤ w.currentScore) ∧
      (∀ p ∈ [(⟨1, 0, 10⟩ : GamePlayerRow), ⟨2, 1, 10⟩, ⟨3, 2, 5⟩, ⟨4, 3, 0⟩],
        p.currentScore = w.currentScore → w.playerOrder ≤ p.playerOrder) :=
  gameEnd_winner_spec _ Suit.SPADES rfl rfl (by decide)

/-- C5 (documents the code bug): `getGameDataForBroadcast` puts every
seat's full unplayed hand into the payload, and the `gameStateUpdate`
emission sends the identical payload to every client in the session
room — so the client seated as player 1 receives seat 2's non-empty
hand.  The spec requires the payload to be personalized per recipient
or the hands to travel on a side channel. -/
theorem gameStateUpdate_leaks_other_hands :
    ∃ entry ∈ gameStateUpdateReceivedBy
        (getGameDataForBroadcast
          { id := 1, status := GameStatus.active_play,
            currentRound := some 1, currentDealerId := some 1,
            currentTurnGamePlayerId := some 1,
            trumpSuit := some Suit.HEARTS,
            currentTrickNumberInRound := some 1,
            gamePlayers := [⟨1, 0, 0⟩, ⟨2, 1, 0⟩, ⟨3, 2, 0⟩, ⟨4, 3, 0⟩] }
          [⟨1, 1, ⟨Suit.HEARTS, Rank.R7⟩, false⟩,
           ⟨2, 1, ⟨Suit.CLUBS, Rank.ACE⟩, false⟩,
           ⟨3, 1, ⟨Suit.SPADES, Rank.R9⟩, false⟩,
           ⟨4, 1, ⟨Suit.DIAMONDS, Rank.KING⟩, false⟩]
          [])
        1,
      entry.id ≠ 1 ∧ entry.hand ≠ [] := by
  decide

end SlagenHalen
